import Mathlib

/-
  Verification development for the voxel-based 3D reconstruction engine
  (src/main.py).  The Python functions check_voxel_visibility,
  check_visibility_and_reconstruct and create_lut_parallel are embedded
  shallowly below.  Machine reals from the source (numpy float64) are
  modelled as rationals; Python int() conversion is truncation toward
  zero (Int.tdiv of numerator by denominator); numpy fancy indexing
  failures (IndexError) are modelled with Except.error.
-/

/-- Colors are triples of channel values (numpy uint8 pixels; always
nonnegative, at most 255, so plain naturals suffice). -/
abbrev RGB : Type := ℕ × ℕ × ℕ

/-- A projected 2D point (floating point in the source, rational here). -/
abbrev Pt2 : Type := ℚ × ℚ

/-- A voxel center in world coordinates. -/
abbrev Pt3 : Type := ℚ × ℚ × ℚ

/-- A 2D image of pixels of type alpha: numpy array of shape
(height, width).  pix y x is the entry at row y, column x; accesses are
modelled through read? below, which enforces the array bounds. -/
structure Img (α : Type) where
  height : ℕ
  width : ℕ
  pix : ℕ → ℕ → α

/-- Bounds-checked pixel access, mirroring numpy indexing with
nonnegative indices: some pixel when inside the array, none (IndexError
in the source) otherwise. -/
def Img.read? {α : Type} (im : Img α) (y x : ℕ) : Option α :=
  if y < im.height ∧ x < im.width then some (im.pix y x) else none

/-- Python list indexing: nonnegative indices address from the front,
negative indices from the back (a single wrap); anything else is an
IndexError, modelled as none. -/
def pyGet {α : Type} (l : List α) (i : ℤ) : Option α :=
  if 0 ≤ i then l[i.toNat]?
  else if (-i).toNat ≤ l.length then l[l.length - (-i).toNat]? else none

/-- Python int() applied to a real number: truncation toward zero.
For a rational this is the numerator divided by the denominator with
T-division (Int.tdiv), exactly the rounding mode of int() in the
source lines x, y = int(point[0]), int(point[1]). -/
def ratTrunc (q : ℚ) : ℤ := q.num.tdiv q.den

/-- np.mean(colors, axis=0).astype(int) from src/main.py line 173.
The componentwise float mean of at most four channel sums (each at most
1020) is either exact in float64 or off by far less than the distance
to the nearest integer, so astype(int), which truncates toward zero,
yields the floor of the exact rational mean; channel values are
nonnegative, so this is natural-number division of the sum by the
count. -/
def meanColor (cs : List RGB) : RGB :=
  ((cs.map (fun c => c.1)).sum / cs.length,
   (cs.map (fun c => c.2.1)).sum / cs.length,
   (cs.map (fun c => c.2.2)).sum / cs.length)

/-- The loop body state of check_voxel_visibility (src/main.py lines
143-176): iterate over the LUT items in insertion order, carrying the
list of accumulated per-camera colors.  For each camera: read the
projected point at voxel_index (IndexError if the LUT row is too
short), truncate the coordinates with int(), and test
0 <= x < mask.shape[1] and 0 <= y < mask.shape[0].  Python's and
short-circuits: when x < 0 the mask list is never touched, otherwise
fetching the mask can itself raise IndexError.  Inside the bounds a
background pixel (value other than 255) returns None immediately;
a foreground pixel appends the color image pixel (which can raise
IndexError when the color image is smaller than the mask).  A camera
whose projection is out of bounds is skipped.  After the loop, a
nonempty color list yields its truncated mean, an empty one yields
None. -/
def checkAux (i : ℕ) (masks : List (Img ℕ)) (imgs : List (Img RGB))
    (colors : List RGB) : List (ℕ × List Pt2) → Except Unit (Option RGB)
  | [] => if colors.isEmpty then .ok none else .ok (some (meanColor colors))
  | (c, pts) :: rest =>
    match pts[i]? with
    | none => .error ()
    | some p =>
      let x : ℤ := ratTrunc p.1
      let y : ℤ := ratTrunc p.2
      if 0 ≤ x then
        match pyGet masks ((c : ℤ) - 1) with
        | none => .error ()
        | some m =>
          if x < (m.width : ℤ) ∧ 0 ≤ y ∧ y < (m.height : ℤ) then
            if m.pix y.toNat x.toNat = 255 then
              match pyGet imgs ((c : ℤ) - 1) with
              | none => .error ()
              | some im =>
                match im.read? y.toNat x.toNat with
                | none => .error ()
                | some col => checkAux i masks imgs (colors ++ [col]) rest
            else .ok none
          else checkAux i masks imgs colors rest
      else checkAux i masks imgs colors rest

/-- check_voxel_visibility (src/main.py lines 143-176): result is
Except.error () for an IndexError, .ok none for "not visible", and
.ok (some color) for a visible voxel with its averaged color. -/
def check_voxel_visibility (i : ℕ) (lut : List (ℕ × List Pt2))
    (masks : List (Img ℕ)) (imgs : List (Img RGB)) : Except Unit (Option RGB) :=
  checkAux i masks imgs [] lut

/-- np.linspace a b with num samples: sample i is a + i * (b - a) / (num - 1),
endpoints included. -/
def linspace (a b : ℚ) (num : ℕ) (i : ℕ) : ℚ :=
  a + i * ((b - a) / ((num : ℚ) - 1))

/-- x_range = np.linspace(-1024, 1024, num=200) (src/main.py line 192). -/
def x_range (i : ℕ) : ℚ := linspace (-1024) 1024 200 i

/-- y_range = np.linspace(-1024, 1024, num=200) (src/main.py line 193). -/
def y_range (i : ℕ) : ℚ := linspace (-1024) 1024 200 i

/-- z_range = np.linspace(0, 2048, num=200) (src/main.py line 194). -/
def z_range (i : ℕ) : ℚ := linspace 0 2048 200 i

/-- Number of candidate voxels: 200 * 200 * 200. -/
def numVoxels : ℕ := 8000000

/-- Row v of np.array(np.meshgrid(x_range, y_range, z_range)).T.reshape(-1, 3)
(src/main.py line 195).  With the default indexing mode, meshgrid gives
arrays of shape (200, 200, 200) with X[j,i,k] = x_range i,
Y[j,i,k] = y_range j, Z[j,i,k] = z_range k; stacking gives shape
(3, 200, 200, 200); .T reverses the axes to (200, 200, 200, 3) with
entry [k,i,j,l]; reshape(-1,3) flattens in C order, so row v has
k = v / 40000, i = (v % 40000) / 200, j = v % 200 and holds
(x_range i, y_range j, z_range k). -/
def voxelAt (v : ℕ) : Pt3 :=
  (x_range ((v % 40000) / 200), y_range (v % 200), z_range (v / 40000))

/-- The voxel grid as an ordered sequence (src/main.py lines 191-195). -/
def voxels : List Pt3 := (List.range numVoxels).map voxelAt

/-- The fixed camera ids, range(1, 5) in the source. -/
def camIds : List ℕ := [1, 2, 3, 4]

/-- Modelled from the spec: project_to_2d and
parse_camera_config_from_file are defined in helper_functions.py,
which is not part of the sources; per section 4.2 of the design, the
LUT builder maps every voxel center through the camera's projection,
position i of the output corresponding to voxel i.  The per-camera
pinhole projection itself is an opaque collaborator, so it is a
parameter proj taking the camera id and a 3D point. -/
def project_to_2d (proj : ℕ → Pt3 → Pt2) (c : ℕ) (vs : List Pt3) : List Pt2 :=
  vs.map (proj c)

/-- The LUT as an association list in a given key insertion order; the
Python dict lut with keys inserted in that order iterates exactly this
sequence in check_voxel_visibility. -/
def lutWithOrder (proj : ℕ → Pt3 → Pt2) (vs : List Pt3) (order : List ℕ) :
    List (ℕ × List Pt2) :=
  order.map (fun c => (c, project_to_2d proj c vs))

/-- create_lut_parallel (src/main.py lines 114-140): one future per
camera id 1..4; the results are collected by iterating the futures list
in submission order, so the dict insertion order is 1, 2, 3, 4
regardless of which thread finishes first. -/
def create_lut_parallel (proj : ℕ → Pt3 → Pt2) (vs : List Pt3) :
    List (ℕ × List Pt2) :=
  lutWithOrder proj vs camIds

/-- One output record: corrected integer indices int(x/16), int(y/16),
int(z/16) and the averaged color (src/main.py lines 206-211). -/
abbrev OutRec : Type := ℤ × ℤ × ℤ × RGB

/-- The per-voxel loop of check_visibility_and_reconstruct (src/main.py
lines 200-211) over a list of voxel indices: read the voxel coordinates,
run the visibility check, and append the corrected indices and color of
each visible voxel; an IndexError anywhere aborts the pass with no
output. -/
def reconstructLoop (vs : List Pt3) (lut : List (ℕ × List Pt2))
    (masks : List (Img ℕ)) (imgs : List (Img RGB)) :
    List ℕ → Except Unit (List OutRec)
  | [] => .ok []
  | i :: rest =>
    match vs[i]? with
    | none => .error ()
    | some pt =>
      match check_voxel_visibility i lut masks imgs with
      | .error e => .error e
      | .ok none => reconstructLoop vs lut masks imgs rest
      | .ok (some col) =>
        match reconstructLoop vs lut masks imgs rest with
        | .error e => .error e
        | .ok acc =>
          .ok ((ratTrunc (pt.1 / 16), ratTrunc (pt.2.1 / 16),
                ratTrunc (pt.2.2 / 16), col) :: acc)

/-- check_visibility_and_reconstruct (src/main.py lines 180-216):
build the fixed grid, build the LUT for the four cameras, then resolve
every voxel index in ascending order.  The visible_points list that the
source writes to parameters/voxels.txt is returned; an uncaught
IndexError yields Except.error and no file is written. -/
def check_visibility_and_reconstruct (masks : List (Img ℕ))
    (imgs : List (Img RGB)) (proj : ℕ → Pt3 → Pt2) : Except Unit (List OutRec) :=
  reconstructLoop voxels (create_lut_parallel proj voxels) masks imgs
    (List.range voxels.length)

/-- Equality of Except values is decidable when both components are;
needed to evaluate concrete runs of the checker with decide. -/
instance exceptDecEq {ε α : Type} [DecidableEq ε] [DecidableEq α] :
    DecidableEq (Except ε α) := fun a b =>
  match a, b with
  | .ok x, .ok y =>
    if h : x = y then isTrue (by rw [h]) else isFalse (by simp [h])
  | .error e, .error f =>
    if h : e = f then isTrue (by rw [h]) else isFalse (by simp [h])
  | .ok _, .error _ => isFalse (by simp)
  | .error _, .ok _ => isFalse (by simp)

/-- Camera e sees voxel i inside its silhouette image bounds: the LUT
row has an entry at i whose truncated coordinates pass the bounds test
of src/main.py line 163. -/
def camInB (i : ℕ) (masks : List (Img ℕ)) (e : ℕ × List Pt2) : Bool :=
  match e.2[i]?, pyGet masks ((e.1 : ℤ) - 1) with
  | some p, some m =>
    decide (0 ≤ ratTrunc p.1 ∧ ratTrunc p.1 < (m.width : ℤ) ∧
            0 ≤ ratTrunc p.2 ∧ ratTrunc p.2 < (m.height : ℤ))
  | _, _ => false

/-- Camera e is in bounds for voxel i but its silhouette pixel is
background (not 255): the disqualifying case of src/main.py line 170. -/
def camBad (i : ℕ) (masks : List (Img ℕ)) (e : ℕ × List Pt2) : Bool :=
  match e.2[i]?, pyGet masks ((e.1 : ℤ) - 1) with
  | some p, some m =>
    (decide (0 ≤ ratTrunc p.1 ∧ ratTrunc p.1 < (m.width : ℤ) ∧
             0 ≤ ratTrunc p.2 ∧ ratTrunc p.2 < (m.height : ℤ))) &&
    !(decide (m.pix (ratTrunc p.2).toNat (ratTrunc p.1).toNat = 255))
  | _, _ => false

/-- The color contributed by camera e for voxel i: present exactly when
the camera is in bounds and foreground, in which case it is the color
image pixel at the truncated coordinates. -/
def camColor (i : ℕ) (masks : List (Img ℕ)) (imgs : List (Img RGB))
    (e : ℕ × List Pt2) : Option RGB :=
  if camInB i masks e && !(camBad i masks e) then
    match e.2[i]?, pyGet imgs ((e.1 : ℤ) - 1) with
    | some p, some im => some (im.pix (ratTrunc p.2).toNat (ratTrunc p.1).toNat)
    | _, _ => none
  else none

/-- Well-formedness of one LUT entry for voxel i: the LUT row covers i,
the masks and images lists cover the camera id, and the color image is
at least as large as the silhouette mask, so no access in the checker
raises IndexError. -/
def CamOK (i : ℕ) (masks : List (Img ℕ)) (imgs : List (Img RGB))
    (e : ℕ × List Pt2) : Prop :=
  (e.2[i]?).isSome ∧
  ∃ m im, pyGet masks ((e.1 : ℤ) - 1) = some m ∧
    pyGet imgs ((e.1 : ℤ) - 1) = some im ∧
    m.height ≤ im.height ∧ m.width ≤ im.width

/-- Well-formedness of a whole LUT for voxel i. -/
def LutOK (i : ℕ) (lut : List (ℕ × List Pt2)) (masks : List (Img ℕ))
    (imgs : List (Img RGB)) : Prop :=
  ∀ e ∈ lut, CamOK i masks imgs e

/-- Every silhouette mask is entirely background: no in-range pixel
holds the foreground value 255. -/
def allBackground (masks : List (Img ℕ)) : Prop :=
  ∀ m ∈ masks, ∀ y < m.height, ∀ x < m.width, m.pix y x ≠ 255

/-- A projected point with both coordinates replaced by their own
truncations (as rationals). -/
def truncPt (p : Pt2) : Pt2 :=
  (((ratTrunc p.1 : ℤ) : ℚ), ((ratTrunc p.2 : ℤ) : ℚ))

/-- The LUT with every stored projected point replaced by its own
truncation. -/
def truncLut (lut : List (ℕ × List Pt2)) : List (ℕ × List Pt2) :=
  lut.map (fun e => (e.1, e.2.map truncPt))

/-- A 1 by 1 all-background silhouette mask (test input). -/
def mBg : Img ℕ := ⟨1, 1, fun _ _ => 0⟩

/-- A 1 by 1 all-foreground silhouette mask (test input). -/
def mFg : Img ℕ := ⟨1, 1, fun _ _ => 255⟩

/-- 1 by 1 color images with fixed colors (test inputs). -/
def img10 : Img RGB := ⟨1, 1, fun _ _ => (10, 0, 0)⟩

def img20 : Img RGB := ⟨1, 1, fun _ _ => (20, 0, 0)⟩

def img30 : Img RGB := ⟨1, 1, fun _ _ => (30, 0, 0)⟩

def img40 : Img RGB := ⟨1, 1, fun _ _ => (40, 0, 0)⟩

/-- A concrete LUT whose camera 1 projection is out of bounds (negative
x) while cameras 2, 3, 4 project to the in-bounds pixel (0, 0). -/
def lutOOB : List (ℕ × List Pt2) :=
  [(1, [((-1 : ℚ), 0)]), (2, [(0, 0)]), (3, [(0, 0)]), (4, [(0, 0)])]

/-- Masks for the out-of-bounds scenario: camera 1 all background, the
rest all foreground. -/
def masksOOB : List (Img ℕ) := [mBg, mFg, mFg, mFg]

/-- Color images for the out-of-bounds scenario. -/
def imgsOOB : List (Img RGB) := [img10, img20, img30, img40]

/-- A concrete LUT projecting the only voxel to pixel (0, 0) in all
four cameras. -/
def lutZero : List (ℕ × List Pt2) :=
  [(1, [((0 : ℚ), 0)]), (2, [(0, 0)]), (3, [(0, 0)]), (4, [(0, 0)])]

/-- All-foreground masks for the four cameras. -/
def masksFg : List (Img ℕ) := [mFg, mFg, mFg, mFg]

/-- All-background masks for the four cameras. -/
def masksBg : List (Img ℕ) := [mBg, mBg, mBg, mBg]

/-- Color images for the four cameras. -/
def imgsFour : List (Img RGB) := [img10, img20, img30, img40]

/-- A projection sending every voxel of every camera to pixel (0, 0). -/
def projZero : ℕ → Pt3 → Pt2 := fun _ _ => (0, 0)

/-- A 2 by 2 color image, deliberately larger than the 1 by 1 masks, to
exercise a mask/color dimension mismatch. -/
def imgBig : Img RGB := ⟨2, 2, fun _ _ => (7, 7, 7)⟩

/-- Color images whose first entry has different dimensions than the
corresponding silhouette mask. -/
def imgsMismatch : List (Img RGB) := [imgBig, img20, img30, img40]

lemma camBad_camInB {i : ℕ} {masks : List (Img ℕ)} {e : ℕ × List Pt2}
    (h : camBad i masks e = true) : camInB i masks e = true := by
  unfold camBad at h
  unfold camInB
  cases h1 : e.2[i]? with
  | none => rw [h1] at h; simp at h
  | some p =>
    cases h2 : pyGet masks ((e.1 : ℤ) - 1) with
    | none => rw [h1, h2] at h; simp at h
    | some m =>
      rw [h1, h2] at h
      rw [Bool.and_eq_true] at h
      exact h.1

lemma camColor_isSome {i : ℕ} {masks : List (Img ℕ)} {imgs : List (Img RGB)}
    {e : ℕ × List Pt2} (he : CamOK i masks imgs e)
    (hbad : camBad i masks e = false) :
    (camColor i masks imgs e).isSome = camInB i masks e := by
  obtain ⟨hs, m, im, hm, him, _, _⟩ := he
  obtain ⟨p, hp⟩ := Option.isSome_iff_exists.mp hs
  cases hin : camInB i masks e with
  | false => simp [camColor, hin]
  | true => simp [camColor, hin, hbad, hp, him]

lemma checkAux_char (i : ℕ) (masks : List (Img ℕ)) (imgs : List (Img RGB)) :
    ∀ lut : List (ℕ × List Pt2), LutOK i lut masks imgs → ∀ acc : List RGB,
    checkAux i masks imgs acc lut =
      if lut.any (camBad i masks) then .ok none
      else if (acc ++ lut.filterMap (camColor i masks imgs)).isEmpty then .ok none
      else .ok (some (meanColor (acc ++ lut.filterMap (camColor i masks imgs)))) := by
  intro lut
  induction lut with
  | nil =>
    intro _ acc
    simp [checkAux]
  | cons e rest ih =>
    intro hok acc
    obtain ⟨c, pts⟩ := e
    obtain ⟨hsome, m, im, hm, him, hh, hw⟩ := hok _ (List.mem_cons_self _ _)
    have hok2 : LutOK i rest masks imgs := fun f hf => hok f (List.mem_cons_of_mem _ hf)
    obtain ⟨p, hp⟩ := Option.isSome_iff_exists.mp hsome
    by_cases hx : 0 ≤ ratTrunc p.1
    · by_cases hin : ratTrunc p.1 < (m.width : ℤ) ∧ 0 ≤ ratTrunc p.2 ∧
          ratTrunc p.2 < (m.height : ℤ)
      · by_cases hpix : m.pix (ratTrunc p.2).toNat (ratTrunc p.1).toNat = 255
        · -- in bounds and foreground: the camera contributes its color
          have hyb : (ratTrunc p.2).toNat < im.height := by
            have h1 := hin.2.1
            have h2 := hin.2.2
            omega
          have hxb : (ratTrunc p.1).toNat < im.width := by
            have h1 := hin.1
            omega
          have hread : im.read? (ratTrunc p.2).toNat (ratTrunc p.1).toNat =
              some (im.pix (ratTrunc p.2).toNat (ratTrunc p.1).toNat) := by
            simp [Img.read?, hyb, hxb]
          have hstep : checkAux i masks imgs acc ((c, pts) :: rest) =
              checkAux i masks imgs
                (acc ++ [im.pix (ratTrunc p.2).toNat (ratTrunc p.1).toNat]) rest := by
            simp [checkAux, hp, hm, him, hx, hin.1, hin.2.1, hin.2.2, hpix, hread]
          have hbad : camBad i masks (c, pts) = false := by
            simp [camBad, hp, hm, hpix]
          have hcol : camColor i masks imgs (c, pts) =
              some (im.pix (ratTrunc p.2).toNat (ratTrunc p.1).toNat) := by
            simp [camColor, camInB, camBad, hp, hm, him, hx, hin.1, hin.2.1,
              hin.2.2, hpix]
          rw [hstep, ih hok2, List.any_cons, List.filterMap_cons, hbad, hcol,
            Bool.false_or]
          simp [List.append_assoc]
        · -- in bounds and background: the voxel is discarded
          have hstep : checkAux i masks imgs acc ((c, pts) :: rest) = .ok none := by
            simp [checkAux, hp, hm, hx, hin.1, hin.2.1, hin.2.2, hpix]
          have hbad : camBad i masks (c, pts) = true := by
            simp [camBad, hp, hm, hx, hin.1, hin.2.1, hin.2.2, hpix]
          rw [hstep, List.any_cons, hbad]
          simp
      · -- out of bounds: the camera is skipped
        have hconj : ¬(0 ≤ ratTrunc p.1 ∧ ratTrunc p.1 < (m.width : ℤ) ∧
            0 ≤ ratTrunc p.2 ∧ ratTrunc p.2 < (m.height : ℤ)) := fun h => hin h.2
        have hstep : checkAux i masks imgs acc ((c, pts) :: rest) =
            checkAux i masks imgs acc rest := by
          rcases Decidable.not_and_iff_or_not.mp hin with h | h
          · simp [checkAux, hp, hm, hx, h]
          · rcases Decidable.not_and_iff_or_not.mp h with h2 | h2 <;>
              simp [checkAux, hp, hm, hx, h2]
        have hbad : camBad i masks (c, pts) = false := by
          simp [camBad, hp, hm, hconj]
        have hcol : camColor i masks imgs (c, pts) = none := by
          have hnb : camInB i masks (c, pts) = false := by
            simp [camInB, hp, hm, hconj]
          simp [camColor, hnb]
        rw [hstep, ih hok2, List.any_cons, List.filterMap_cons, hbad, hcol,
          Bool.false_or]
    · -- negative x: skipped before the mask is even fetched
      have hconj : ¬(0 ≤ ratTrunc p.1 ∧ ratTrunc p.1 < (m.width : ℤ) ∧
          0 ≤ ratTrunc p.2 ∧ ratTrunc p.2 < (m.height : ℤ)) := fun h => hx h.1
      have hstep : checkAux i masks imgs acc ((c, pts) :: rest) =
          checkAux i masks imgs acc rest := by
        simp [checkAux, hp, hx]
      have hbad : camBad i masks (c, pts) = false := by
        simp [camBad, hp, hm, hconj]
      have hcol : camColor i masks imgs (c, pts) = none := by
        have hnb : camInB i masks (c, pts) = false := by
          simp [camInB, hp, hm, hconj]
        simp [camColor, hnb]
      rw [hstep, ih hok2, List.any_cons, List.filterMap_cons, hbad, hcol,
        Bool.false_or]

lemma check_char {i : ℕ} {lut : List (ℕ × List Pt2)} {masks : List (Img ℕ)}
    {imgs : List (Img RGB)} (hok : LutOK i lut masks imgs) :
    check_voxel_visibility i lut masks imgs =
      if lut.any (camBad i masks) then .ok none
      else if (lut.filterMap (camColor i masks imgs)).isEmpty then .ok none
      else .ok (some (meanColor (lut.filterMap (camColor i masks imgs)))) := by
  have h := checkAux_char i masks imgs lut hok []
  simpa [check_voxel_visibility] using h

lemma getElem?_isSome_iff {α : Type} {l : List α} {n : ℕ} :
    (l[n]?).isSome ↔ n < l.length := by
  constructor
  · intro h
    obtain ⟨a, ha⟩ := Option.isSome_iff_exists.mp h
    obtain ⟨h1, _⟩ := List.getElem?_eq_some.mp ha
    exact h1
  · intro h
    rw [List.getElem?_eq_getElem h]
    rfl

lemma mem_of_get? {α : Type} {l : List α} {n : ℕ} {a : α}
    (h : l[n]? = some a) : a ∈ l := by
  obtain ⟨hlt, rfl⟩ := List.getElem?_eq_some.mp h
  exact List.getElem_mem hlt

lemma pyGet_mem {α : Type} {l : List α} {i : ℤ} {a : α}
    (h : pyGet l i = some a) : a ∈ l := by
  unfold pyGet at h
  split at h
  · exact mem_of_get? h
  · split at h
    · exact mem_of_get? h
    · cases h

lemma pyGet_natCast {α : Type} (l : List α) (k : ℕ) :
    pyGet l (k : ℤ) = l[k]? := by
  simp [pyGet]

lemma ratFloor_eq_div (q : ℚ) : ⌊q⌋ = q.num / (q.den : ℤ) := by
  conv_lhs => rw [← Rat.num_div_den q]
  exact Rat.floor_intCast_div_natCast q.num q.den

lemma ratTrunc_of_nonneg {q : ℚ} (hq : 0 ≤ q) : ratTrunc q = ⌊q⌋ := by
  rw [ratFloor_eq_div, ratTrunc]
  exact Int.tdiv_eq_ediv (Rat.num_nonneg.mpr hq) (Int.ofNat_nonneg q.den)

lemma ratTrunc_of_nonpos {q : ℚ} (hq : q ≤ 0) : ratTrunc q = ⌈q⌉ := by
  have hneg : ratTrunc q = -(ratTrunc (-q)) := by
    unfold ratTrunc
    have h1 : (-q).num = -q.num := rfl
    have h2 : (-q).den = q.den := rfl
    rw [h1, h2, Int.neg_tdiv, neg_neg]
  rw [hneg, ratTrunc_of_nonneg (neg_nonneg.mpr hq), Int.floor_neg, neg_neg]

lemma ratTrunc_intCast (n : ℤ) : ratTrunc (n : ℚ) = n := by
  unfold ratTrunc
  rw [Rat.num_intCast, Rat.den_intCast]
  exact Int.tdiv_one n

lemma ratTrunc_truncPt_fst (p : Pt2) : ratTrunc (truncPt p).1 = ratTrunc p.1 :=
  ratTrunc_intCast _

lemma ratTrunc_truncPt_snd (p : Pt2) : ratTrunc (truncPt p).2 = ratTrunc p.2 :=
  ratTrunc_intCast _

lemma checkAux_truncLut (i : ℕ) (masks : List (Img ℕ)) (imgs : List (Img RGB)) :
    ∀ lut : List (ℕ × List Pt2), ∀ acc : List RGB,
    checkAux i masks imgs acc (truncLut lut) = checkAux i masks imgs acc lut := by
  intro lut
  induction lut with
  | nil => intro acc; rfl
  | cons e rest ih =>
    intro acc
    obtain ⟨c, pts⟩ := e
    have hcons : truncLut ((c, pts) :: rest) =
        (c, pts.map truncPt) :: truncLut rest := rfl
    rw [hcons]
    cases hp : pts[i]? with
    | none =>
      have hp2 : (pts.map truncPt)[i]? = none := by
        rw [List.getElem?_map, hp]
        rfl
      simp [checkAux, hp, hp2]
    | some p =>
      have hp2 : (pts.map truncPt)[i]? = some (truncPt p) := by
        rw [List.getElem?_map, hp]
        rfl
      by_cases hx : 0 ≤ ratTrunc p.1
      · cases hm : pyGet masks ((c : ℤ) - 1) with
        | none =>
          simp [checkAux, hp, hp2, hx, hm, ratTrunc_truncPt_fst]
        | some m =>
          by_cases hin : ratTrunc p.1 < (m.width : ℤ) ∧ 0 ≤ ratTrunc p.2 ∧
              ratTrunc p.2 < (m.height : ℤ)
          · by_cases hpix : m.pix (ratTrunc p.2).toNat (ratTrunc p.1).toNat = 255
            · cases him : pyGet imgs ((c : ℤ) - 1) with
              | none =>
                simp [checkAux, hp, hp2, hx, hm, him, hin.1, hin.2.1, hin.2.2,
                  hpix, ratTrunc_truncPt_fst, ratTrunc_truncPt_snd]
              | some im =>
                cases hread : im.read? (ratTrunc p.2).toNat (ratTrunc p.1).toNat with
                | none =>
                  simp [checkAux, hp, hp2, hx, hm, him, hread, hin.1, hin.2.1,
                    hin.2.2, hpix, ratTrunc_truncPt_fst, ratTrunc_truncPt_snd]
                | some col =>
                  have lhs : checkAux i masks imgs acc
                      ((c, pts.map truncPt) :: truncLut rest) =
                      checkAux i masks imgs (acc ++ [col]) (truncLut rest) := by
                    simp [checkAux, hp2, hx, hm, him, hread, hin.1, hin.2.1,
                      hin.2.2, hpix, ratTrunc_truncPt_fst, ratTrunc_truncPt_snd]
                  have rhs : checkAux i masks imgs acc ((c, pts) :: rest) =
                      checkAux i masks imgs (acc ++ [col]) rest := by
                    simp [checkAux, hp, hx, hm, him, hread, hin.1, hin.2.1,
                      hin.2.2, hpix]
                  rw [lhs, rhs, ih]
            · simp [checkAux, hp, hp2, hx, hm, hin.1, hin.2.1, hin.2.2, hpix,
                ratTrunc_truncPt_fst, ratTrunc_truncPt_snd]
          · have lhs : checkAux i masks imgs acc
                ((c, pts.map truncPt) :: truncLut rest) =
                checkAux i masks imgs acc (truncLut rest) := by
              rcases Decidable.not_and_iff_or_not.mp hin with h | h
              · simp [checkAux, hp2, hx, hm, ratTrunc_truncPt_fst,
                  ratTrunc_truncPt_snd, h]
              · rcases Decidable.not_and_iff_or_not.mp h with h2 | h2 <;>
                  simp [checkAux, hp2, hx, hm, ratTrunc_truncPt_fst,
                    ratTrunc_truncPt_snd, h2]
            have rhs : checkAux i masks imgs acc ((c, pts) :: rest) =
                checkAux i masks imgs acc rest := by
              rcases Decidable.not_and_iff_or_not.mp hin with h | h
              · simp [checkAux, hp, hx, hm, h]
              · rcases Decidable.not_and_iff_or_not.mp h with h2 | h2 <;>
                  simp [checkAux, hp, hx, hm, h2]
            rw [lhs, rhs, ih]
      · have lhs : checkAux i masks imgs acc
            ((c, pts.map truncPt) :: truncLut rest) =
            checkAux i masks imgs acc (truncLut rest) := by
          simp [checkAux, hp2, hx, ratTrunc_truncPt_fst]
        have rhs : checkAux i masks imgs acc ((c, pts) :: rest) =
            checkAux i masks imgs acc rest := by
          simp [checkAux, hp, hx]
        rw [lhs, rhs, ih]

lemma check_truncLut (i : ℕ) (lut : List (ℕ × List Pt2))
    (masks : List (Img ℕ)) (imgs : List (Img RGB)) :
    check_voxel_visibility i (truncLut lut) masks imgs =
      check_voxel_visibility i lut masks imgs :=
  checkAux_truncLut i masks imgs lut []

lemma checkAux_allBackground (i : ℕ) (masks : List (Img ℕ))
    (imgs : List (Img RGB)) (hbg : allBackground masks) :
    ∀ lut : List (ℕ × List Pt2),
    (∀ e ∈ lut, (e.2[i]?).isSome ∧ (pyGet masks ((e.1 : ℤ) - 1)).isSome) →
    checkAux i masks imgs [] lut = .ok none := by
  intro lut
  induction lut with
  | nil => intro _; rfl
  | cons e rest ih =>
    intro h
    obtain ⟨c, pts⟩ := e
    obtain ⟨hs, hms⟩ := h _ (List.mem_cons_self _ _)
    have h2 : ∀ f ∈ rest, (f.2[i]?).isSome ∧ (pyGet masks ((f.1 : ℤ) - 1)).isSome :=
      fun f hf => h f (List.mem_cons_of_mem _ hf)
    obtain ⟨p, hp⟩ := Option.isSome_iff_exists.mp hs
    obtain ⟨m, hm⟩ := Option.isSome_iff_exists.mp hms
    by_cases hx : 0 ≤ ratTrunc p.1
    · by_cases hin : ratTrunc p.1 < (m.width : ℤ) ∧ 0 ≤ ratTrunc p.2 ∧
          ratTrunc p.2 < (m.height : ℤ)
      · have hyb : (ratTrunc p.2).toNat < m.height := by
          have h3 := hin.2.1
          have h4 := hin.2.2
          omega
        have hxb : (ratTrunc p.1).toNat < m.width := by
          have h3 := hin.1
          omega
        have hpix : m.pix (ratTrunc p.2).toNat (ratTrunc p.1).toNat ≠ 255 :=
          hbg m (pyGet_mem hm) _ hyb _ hxb
        simp [checkAux, hp, hm, hx, hin.1, hin.2.1, hin.2.2, hpix]
      · have hstep : checkAux i masks imgs [] ((c, pts) :: rest) =
            checkAux i masks imgs [] rest := by
          rcases Decidable.not_and_iff_or_not.mp hin with h3 | h3
          · simp [checkAux, hp, hm, hx, h3]
          · rcases Decidable.not_and_iff_or_not.mp h3 with h4 | h4 <;>
              simp [checkAux, hp, hm, hx, h4]
        rw [hstep]
        exact ih h2
    · have hstep : checkAux i masks imgs [] ((c, pts) :: rest) =
          checkAux i masks imgs [] rest := by
        simp [checkAux, hp, hx]
      rw [hstep]
      exact ih h2

lemma check_allBackground {i : ℕ} {lut : List (ℕ × List Pt2)}
    {masks : List (Img ℕ)} {imgs : List (Img RGB)} (hbg : allBackground masks)
    (h : ∀ e ∈ lut, (e.2[i]?).isSome ∧ (pyGet masks ((e.1 : ℤ) - 1)).isSome) :
    check_voxel_visibility i lut masks imgs = .ok none :=
  checkAux_allBackground i masks imgs hbg lut h

lemma reconstructLoop_all_none (vs : List Pt3) (lut : List (ℕ × List Pt2))
    (masks : List (Img ℕ)) (imgs : List (Img RGB)) :
    ∀ idxs : List ℕ,
    (∀ i ∈ idxs, (vs[i]?).isSome ∧
      check_voxel_visibility i lut masks imgs = .ok none) →
    reconstructLoop vs lut masks imgs idxs = .ok [] := by
  intro idxs
  induction idxs with
  | nil => intro _; rfl
  | cons i rest ih =>
    intro h
    obtain ⟨hs, hc⟩ := h i (List.mem_cons_self _ _)
    obtain ⟨pt, hpt⟩ := Option.isSome_iff_exists.mp hs
    have h2 := fun j hj => h j (List.mem_cons_of_mem _ hj)
    simp [reconstructLoop, hpt, hc, ih h2]

lemma lut_entry_shape {proj : ℕ → Pt3 → Pt2} {vs : List Pt3} {order : List ℕ}
    {e : ℕ × List Pt2} (he : e ∈ lutWithOrder proj vs order) :
    e.1 ∈ order ∧ e.2 = vs.map (proj e.1) := by
  unfold lutWithOrder project_to_2d at he
  obtain ⟨c, hc, rfl⟩ := List.mem_map.mp he
  exact ⟨hc, rfl⟩

lemma reconstruct_allBackground {masks : List (Img ℕ)} {imgs : List (Img RGB)}
    {proj : ℕ → Pt3 → Pt2} (hm4 : masks.length = 4) (hbg : allBackground masks) :
    check_visibility_and_reconstruct masks imgs proj = .ok [] := by
  unfold check_visibility_and_reconstruct
  apply reconstructLoop_all_none
  intro i hi
  rw [List.mem_range] at hi
  constructor
  · exact getElem?_isSome_iff.mpr hi
  · apply check_allBackground hbg
    intro e he
    rw [create_lut_parallel, lutWithOrder] at he
    obtain ⟨c, hc, rfl⟩ := List.mem_map.mp he
    constructor
    · unfold project_to_2d
      refine getElem?_isSome_iff.mpr ?_
      rw [List.length_map]
      exact hi
    · have hlen : 4 ≤ masks.length := le_of_eq hm4.symm
      fin_cases hc
      · rw [show ((1 : ℕ) : ℤ) - 1 = ((0 : ℕ) : ℤ) from rfl, pyGet_natCast]
        refine getElem?_isSome_iff.mpr ?_
        omega
      · rw [show ((2 : ℕ) : ℤ) - 1 = ((1 : ℕ) : ℤ) from rfl, pyGet_natCast]
        refine getElem?_isSome_iff.mpr ?_
        omega
      · rw [show ((3 : ℕ) : ℤ) - 1 = ((2 : ℕ) : ℤ) from rfl, pyGet_natCast]
        refine getElem?_isSome_iff.mpr ?_
        omega
      · rw [show ((4 : ℕ) : ℤ) - 1 = ((3 : ℕ) : ℤ) from rfl, pyGet_natCast]
        refine getElem?_isSome_iff.mpr ?_
        omega

lemma any_of_perm {α : Type} {l1 l2 : List α} (p : α → Bool) (h : l1.Perm l2) :
    l1.any p = l2.any p := by
  rw [Bool.eq_iff_iff, List.any_eq_true, List.any_eq_true]
  constructor
  · rintro ⟨x, hx, hp⟩
    exact ⟨x, h.mem_iff.mp hx, hp⟩
  · rintro ⟨x, hx, hp⟩
    exact ⟨x, h.mem_iff.mpr hx, hp⟩

lemma meanColor_perm {l1 l2 : List RGB} (h : l1.Perm l2) :
    meanColor l1 = meanColor l2 := by
  unfold meanColor
  rw [(h.map (fun c => c.1)).sum_eq, (h.map (fun c => c.2.1)).sum_eq,
    (h.map (fun c => c.2.2)).sum_eq, h.length_eq]

lemma isEmpty_of_perm {α : Type} {l1 l2 : List α} (h : l1.Perm l2) :
    l1.isEmpty = l2.isEmpty := by
  rw [Bool.eq_iff_iff, List.isEmpty_iff, List.isEmpty_iff]
  constructor
  · intro h1
    exact List.Perm.eq_nil (List.Perm.symm (h1 ▸ h))
  · intro h1
    exact List.Perm.eq_nil (h1 ▸ h)

lemma check_perm {i : ℕ} {lutA lutB : List (ℕ × List Pt2)}
    {masks : List (Img ℕ)} {imgs : List (Img RGB)} (hperm : lutA.Perm lutB)
    (hok : LutOK i lutA masks imgs) :
    check_voxel_visibility i lutA masks imgs =
      check_voxel_visibility i lutB masks imgs := by
  have hokB : LutOK i lutB masks imgs := fun e he => hok e (hperm.mem_iff.mpr he)
  rw [check_char hok, check_char hokB]
  have hfm : (lutA.filterMap (camColor i masks imgs)).Perm
      (lutB.filterMap (camColor i masks imgs)) := hperm.filterMap _
  rw [any_of_perm _ hperm, isEmpty_of_perm hfm, meanColor_perm hfm]

lemma reconstructLoop_congr (vs : List Pt3) (lutA lutB : List (ℕ × List Pt2))
    (masks : List (Img ℕ)) (imgs : List (Img RGB)) :
    ∀ idxs : List ℕ,
    (∀ i ∈ idxs, check_voxel_visibility i lutA masks imgs =
      check_voxel_visibility i lutB masks imgs) →
    reconstructLoop vs lutA masks imgs idxs =
      reconstructLoop vs lutB masks imgs idxs := by
  intro idxs
  induction idxs with
  | nil => intro _; rfl
  | cons i rest ih =>
    intro h
    have hi := h i (List.mem_cons_self _ _)
    have h2 := fun j hj => h j (List.mem_cons_of_mem _ hj)
    cases hpt : vs[i]? with
    | none => simp [reconstructLoop, hpt]
    | some pt => simp [reconstructLoop, hpt, hi, ih h2]

lemma reconstructLoop_char (vs : List Pt3) (lut : List (ℕ × List Pt2))
    (masks : List (Img ℕ)) (imgs : List (Img RGB)) :
    ∀ idxs : List ℕ,
    (∀ i ∈ idxs, (vs[i]?).isSome ∧
      check_voxel_visibility i lut masks imgs ≠ .error ()) →
    reconstructLoop vs lut masks imgs idxs = .ok (idxs.filterMap (fun i =>
      match vs[i]?, check_voxel_visibility i lut masks imgs with
      | some pt, .ok (some col) =>
        some (ratTrunc (pt.1 / 16), ratTrunc (pt.2.1 / 16),
          ratTrunc (pt.2.2 / 16), col)
      | _, _ => none)) := by
  intro idxs
  induction idxs with
  | nil => intro _; rfl
  | cons i rest ih =>
    intro h
    obtain ⟨hs, hne⟩ := h i (List.mem_cons_self _ _)
    obtain ⟨pt, hpt⟩ := Option.isSome_iff_exists.mp hs
    have h2 := fun j hj => h j (List.mem_cons_of_mem _ hj)
    cases hc : check_voxel_visibility i lut masks imgs with
    | error e =>
      cases e
      exact absurd hc hne
    | ok r =>
      cases r with
      | none => simp [reconstructLoop, hpt, hc, List.filterMap_cons, ih h2]
      | some col => simp [reconstructLoop, hpt, hc, List.filterMap_cons, ih h2]

lemma bool_eq_false {b : Bool} (h : ¬ b = true) : b = false := by
  cases b
  · rfl
  · exact absurd rfl h

lemma linspace_inj {a b : ℚ} {num : ℕ}
    (hs : (b - a) / ((num : ℚ) - 1) ≠ 0) {i j : ℕ}
    (h : linspace a b num i = linspace a b num j) : i = j := by
  unfold linspace at h
  have h2 : (i : ℚ) * ((b - a) / ((num : ℚ) - 1)) =
      (j : ℚ) * ((b - a) / ((num : ℚ) - 1)) := by linarith
  have h3 := mul_right_cancel₀ hs h2
  exact_mod_cast h3

lemma x_range_inj {i j : ℕ} (h : x_range i = x_range j) : i = j :=
  linspace_inj (by norm_num) h

lemma y_range_inj {i j : ℕ} (h : y_range i = y_range j) : i = j :=
  linspace_inj (by norm_num) h

lemma z_range_inj {i j : ℕ} (h : z_range i = z_range j) : i = j :=
  linspace_inj (by norm_num) h

lemma voxelAt_encode {a b c : ℕ} (ha : a < 200) (hb : b < 200) (hc : c < 200) :
    voxelAt (c * 40000 + a * 200 + b) = (x_range a, y_range b, z_range c) := by
  unfold voxelAt
  have h1 : (c * 40000 + a * 200 + b) % 40000 / 200 = a := by omega
  have h2 : (c * 40000 + a * 200 + b) % 200 = b := by omega
  have h3 : (c * 40000 + a * 200 + b) / 40000 = c := by omega
  rw [h1, h2, h3]

lemma voxels_getElem {v : ℕ} (hv : v < numVoxels) :
    voxels[v]? = some (voxelAt v) := by
  unfold voxels
  rw [List.getElem?_map, List.getElem?_range hv]
  rfl

lemma voxels_length : voxels.length = numVoxels := by
  unfold voxels
  rw [List.length_map, List.length_range]

/-- C5: the generated voxel grid is a pure function of the fixed
parameters: it has exactly 8,000,000 = 200^3 points, the samples on each
axis are 200 evenly spaced rationals covering X in [-1024, 1024], Y in
[-1024, 1024] and Z in [0, 2048], every grid entry is such a triple,
and every combination of samples occurs at exactly one index of the
fixed enumeration. -/
theorem c5_voxel_grid :
    voxels.length = 8000000 ∧
    8000000 = 200 ^ 3 ∧
    x_range 0 = -1024 ∧ x_range 199 = 1024 ∧
    y_range 0 = -1024 ∧ y_range 199 = 1024 ∧
    z_range 0 = 0 ∧ z_range 199 = 2048 ∧
    (∀ i : ℕ, x_range (i + 1) - x_range i = 2048 / 199) ∧
    (∀ i : ℕ, y_range (i + 1) - y_range i = 2048 / 199) ∧
    (∀ i : ℕ, z_range (i + 1) - z_range i = 2048 / 199) ∧
    (∀ v < 8000000, ∃ a b c, a < 200 ∧ b < 200 ∧ c < 200 ∧
      voxels[v]? = some (x_range a, y_range b, z_range c)) ∧
    (∀ a b c : ℕ, a < 200 → b < 200 → c < 200 →
      ∃! v : ℕ, voxels[v]? = some (x_range a, y_range b, z_range c)) := by
  refine ⟨voxels_length, by norm_num, ?_, ?_, ?_, ?_, ?_, ?_, ?_, ?_, ?_, ?_, ?_⟩
  · unfold x_range linspace; norm_num
  · unfold x_range linspace; norm_num
  · unfold y_range linspace; norm_num
  · unfold y_range linspace; norm_num
  · unfold z_range linspace; norm_num
  · unfold z_range linspace; norm_num
  · intro i; unfold x_range linspace; push_cast; ring_nf
  · intro i; unfold y_range linspace; push_cast; ring_nf
  · intro i; unfold z_range linspace; push_cast; ring_nf
  · intro v hv
    refine ⟨(v % 40000) / 200, v % 200, v / 40000,
      by omega, by omega, by omega, ?_⟩
    rw [voxels_getElem hv]
    rfl
  · intro a b c ha hb hc
    have hv : c * 40000 + a * 200 + b < numVoxels := by
      have : numVoxels = 8000000 := rfl
      omega
    refine ⟨c * 40000 + a * 200 + b, ?_, ?_⟩
    · show voxels[c * 40000 + a * 200 + b]? =
        some (x_range a, y_range b, z_range c)
      rw [voxels_getElem hv, voxelAt_encode ha hb hc]
    · intro w hw0
      have hw : voxels[w]? = some (x_range a, y_range b, z_range c) := hw0
      have hlt : w < numVoxels := by
        have h1 : (voxels[w]?).isSome := by rw [hw]; rfl
        have h2 := getElem?_isSome_iff.mp h1
        rwa [voxels_length] at h2
      rw [voxels_getElem hlt] at hw
      have hev := Option.some.inj hw
      unfold voxelAt at hev
      rw [Prod.mk.injEq, Prod.mk.injEq] at hev
      obtain ⟨h1, h2, h3⟩ := hev
      have ha2 := x_range_inj h1
      have hb2 := y_range_inj h2
      have hc2 := z_range_inj h3
      have hn : numVoxels = 8000000 := rfl
      omega

/-- Witness for C5 at concrete inputs: index 40201 decomposes into
samples, and the sample triple (1, 2, 3) occurs at exactly one index. -/
theorem c5_voxel_grid_witness :
    (∃ a b c, a < 200 ∧ b < 200 ∧ c < 200 ∧
      voxels[(40201 : ℕ)]? = some (x_range a, y_range b, z_range c)) ∧
    (∃! v : ℕ, voxels[v]? = some (x_range 1, y_range 2, z_range 3)) := by
  obtain ⟨-, -, -, -, -, -, -, -, -, -, -, hex, huniq⟩ := c5_voxel_grid
  exact ⟨hex 40201 (by norm_num),
    huniq 1 2 3 (by norm_num) (by norm_num) (by norm_num)⟩

/-- C10: when every access is well formed, check_voxel_visibility skips
out-of-bounds cameras instead of discarding the voxel: if some camera is
in bounds on a background pixel the result is None; otherwise, if at
least one camera is in bounds (all of them necessarily foreground) the
result is the truncated componentwise mean of just the in-bounds
cameras' colors; and if no camera is in bounds the result is None. -/
theorem c10_skip_out_of_bounds (i : ℕ) (lut : List (ℕ × List Pt2))
    (masks : List (Img ℕ)) (imgs : List (Img RGB))
    (hok : LutOK i lut masks imgs) :
    (lut.any (camBad i masks) = true →
      check_voxel_visibility i lut masks imgs = .ok none) ∧
    (lut.any (camBad i masks) = false → lut.any (camInB i masks) = true →
      check_voxel_visibility i lut masks imgs =
        .ok (some (meanColor (lut.filterMap (camColor i masks imgs))))) ∧
    (lut.any (camInB i masks) = false →
      check_voxel_visibility i lut masks imgs = .ok none) := by
  refine ⟨?_, ?_, ?_⟩
  · intro h
    rw [check_char hok, if_pos h]
  · intro hbad hin
    rw [check_char hok, if_neg (by rw [hbad]; exact Bool.false_ne_true)]
    obtain ⟨e, he, hinb⟩ := List.any_eq_true.mp hin
    have hbade : camBad i masks e = false :=
      bool_eq_false (List.any_eq_false.mp hbad e he)
    have hsome := camColor_isSome (hok e he) hbade
    rw [hinb] at hsome
    obtain ⟨col, hcol⟩ := Option.isSome_iff_exists.mp hsome
    have hne : ¬ ((lut.filterMap (camColor i masks imgs)).isEmpty = true) := by
      rw [List.isEmpty_iff]
      intro hnil
      have hmem : col ∈ lut.filterMap (camColor i masks imgs) :=
        List.mem_filterMap.mpr ⟨e, he, hcol⟩
      rw [hnil] at hmem
      cases hmem
    rw [if_neg hne]
  · intro hin
    have hbad : lut.any (camBad i masks) = false := by
      rw [List.any_eq_false]
      intro e he hbe
      exact absurd (camBad_camInB hbe) (List.any_eq_false.mp hin e he)
    rw [check_char hok, if_neg (by rw [hbad]; exact Bool.false_ne_true)]
    have hempty : (lut.filterMap (camColor i masks imgs)).isEmpty = true := by
      rw [List.isEmpty_iff, List.filterMap_eq_nil]
      intro e he
      have hbade : camBad i masks e = false :=
        bool_eq_false (List.any_eq_false.mp hbad e he)
      have hsome := camColor_isSome (hok e he) hbade
      have hinf : camInB i masks e = false :=
        bool_eq_false (List.any_eq_false.mp hin e he)
      rw [hinf] at hsome
      cases hcc : camColor i masks imgs e with
      | none => rfl
      | some col => rw [hcc] at hsome; cases hsome
    rw [if_pos hempty]

/-- Witness for C10 at a concrete input: camera 1 out of bounds and all
background, cameras 2, 3, 4 in bounds and foreground; the result
averages only the three in-bounds colors. -/
theorem c10_skip_out_of_bounds_witness :
    check_voxel_visibility 0 lutOOB masksOOB imgsOOB =
      .ok (some (meanColor (lutOOB.filterMap (camColor 0 masksOOB imgsOOB)))) := by
  have hok : LutOK 0 lutOOB masksOOB imgsOOB := by
    intro e he
    rw [lutOOB] at he
    simp only [List.mem_cons, List.not_mem_nil, or_false] at he
    rcases he with rfl | rfl | rfl | rfl
    · exact ⟨by rfl, mBg, img10, rfl, rfl, le_refl 1, le_refl 1⟩
    · exact ⟨by rfl, mFg, img20, rfl, rfl, le_refl 1, le_refl 1⟩
    · exact ⟨by rfl, mFg, img30, rfl, rfl, le_refl 1, le_refl 1⟩
    · exact ⟨by rfl, mFg, img40, rfl, rfl, le_refl 1, le_refl 1⟩
  exact (c10_skip_out_of_bounds 0 _ _ _ hok).2.1 (by decide) (by decide)

/-- C1 (counterexample): the claimed AND-visibility is false on the
code.  At this input camera 1's truncated projection (-1, 0) is out of
bounds (negative x) and camera 1's mask is entirely background, yet the
resolver reports the voxel visible with the mean of the other three
cameras' colors, so an out-of-bounds camera does not exclude the voxel
and an all-background camera does not force zero visible voxels. -/
theorem c1_counterexample :
    check_voxel_visibility 0 lutOOB masksOOB imgsOOB = .ok (some (30, 0, 0)) ∧
    lutOOB[0]? = some (1, [((-1 : ℚ), 0)]) ∧
    ratTrunc (-1 : ℚ) < 0 ∧
    masksOOB[0]? = some mBg ∧
    allBackground [mBg] := by
  refine ⟨by decide, rfl, by decide, rfl, ?_⟩
  unfold allBackground
  decide

/-- C1 (amended): under well-formed inputs the resolver reports a voxel
visible if and only if at least one camera's truncated projection is in
bounds and no camera whose truncated projection is in bounds sees a
background pixel; cameras whose projection is out of bounds are
skipped, not disqualifying. -/
theorem c1_amended_visibility (i : ℕ) (lut : List (ℕ × List Pt2))
    (masks : List (Img ℕ)) (imgs : List (Img RGB))
    (hok : LutOK i lut masks imgs) :
    (∃ col, check_voxel_visibility i lut masks imgs = .ok (some col)) ↔
      (lut.any (camInB i masks) = true ∧
       lut.any (camBad i masks) = false) := by
  rw [check_char hok]
  constructor
  · rintro ⟨col, hcol⟩
    by_cases hbad : lut.any (camBad i masks) = true
    · rw [if_pos hbad] at hcol
      exact absurd hcol (by simp)
    · have hbadf := bool_eq_false hbad
      rw [if_neg hbad] at hcol
      by_cases hemp : (lut.filterMap (camColor i masks imgs)).isEmpty = true
      · rw [if_pos hemp] at hcol
        exact absurd hcol (by simp)
      · refine ⟨?_, hbadf⟩
        have hex : ∃ x, x ∈ lut.filterMap (camColor i masks imgs) := by
          apply List.exists_mem_of_ne_nil
          intro hnil
          rw [hnil] at hemp
          exact hemp rfl
        obtain ⟨x, hx⟩ := hex
        obtain ⟨e, he, hce⟩ := List.mem_filterMap.mp hx
        have hbade : camBad i masks e = false :=
          bool_eq_false (List.any_eq_false.mp hbadf e he)
        have hs := camColor_isSome (hok e he) hbade
        rw [hce] at hs
        exact List.any_eq_true.mpr ⟨e, he, hs.symm⟩
  · rintro ⟨hin, hbad⟩
    rw [if_neg (by rw [hbad]; exact Bool.false_ne_true)]
    obtain ⟨e, he, hinb⟩ := List.any_eq_true.mp hin
    have hbade : camBad i masks e = false :=
      bool_eq_false (List.any_eq_false.mp hbad e he)
    have hsome := camColor_isSome (hok e he) hbade
    rw [hinb] at hsome
    obtain ⟨col, hcol⟩ := Option.isSome_iff_exists.mp hsome
    have hne : ¬ ((lut.filterMap (camColor i masks imgs)).isEmpty = true) := by
      rw [List.isEmpty_iff]
      intro hnil
      have hmem : col ∈ lut.filterMap (camColor i masks imgs) :=
        List.mem_filterMap.mpr ⟨e, he, hcol⟩
      rw [hnil] at hmem
      cases hmem
    rw [if_neg hne]
    exact ⟨_, rfl⟩

/-- Witness for the amended C1 at the out-of-bounds input: the voxel is
visible because one in-bounds camera is foreground and no in-bounds
camera is background. -/
theorem c1_amended_visibility_witness :
    ∃ col, check_voxel_visibility 0 lutOOB masksOOB imgsOOB =
      .ok (some col) := by
  have hok : LutOK 0 lutOOB masksOOB imgsOOB := by
    intro e he
    rw [lutOOB] at he
    simp only [List.mem_cons, List.not_mem_nil, or_false] at he
    rcases he with rfl | rfl | rfl | rfl
    · exact ⟨by rfl, mBg, img10, rfl, rfl, le_refl 1, le_refl 1⟩
    · exact ⟨by rfl, mFg, img20, rfl, rfl, le_refl 1, le_refl 1⟩
    · exact ⟨by rfl, mFg, img30, rfl, rfl, le_refl 1, le_refl 1⟩
    · exact ⟨by rfl, mFg, img40, rfl, rfl, le_refl 1, le_refl 1⟩
  exact (c1_amended_visibility 0 _ _ _ hok).mpr ⟨by decide, by decide⟩

/-- C2: for a voxel that is in bounds and foreground in all four
cameras, the output color is the componentwise arithmetic mean of the
four per-camera pixel colors, truncated to integer per channel (natural
division of the channel sums by 4). -/
theorem c2_color_mean (i : ℕ) (l1 l2 l3 l4 : List Pt2)
    (m1 m2 m3 m4 : Img ℕ) (im1 im2 im3 im4 : Img RGB)
    (p1 p2 p3 p4 : Pt2)
    (hp1 : l1[i]? = some p1) (hp2 : l2[i]? = some p2)
    (hp3 : l3[i]? = some p3) (hp4 : l4[i]? = some p4)
    (hin1 : 0 ≤ ratTrunc p1.1 ∧ ratTrunc p1.1 < (m1.width : ℤ) ∧
      0 ≤ ratTrunc p1.2 ∧ ratTrunc p1.2 < (m1.height : ℤ))
    (hin2 : 0 ≤ ratTrunc p2.1 ∧ ratTrunc p2.1 < (m2.width : ℤ) ∧
      0 ≤ ratTrunc p2.2 ∧ ratTrunc p2.2 < (m2.height : ℤ))
    (hin3 : 0 ≤ ratTrunc p3.1 ∧ ratTrunc p3.1 < (m3.width : ℤ) ∧
      0 ≤ ratTrunc p3.2 ∧ ratTrunc p3.2 < (m3.height : ℤ))
    (hin4 : 0 ≤ ratTrunc p4.1 ∧ ratTrunc p4.1 < (m4.width : ℤ) ∧
      0 ≤ ratTrunc p4.2 ∧ ratTrunc p4.2 < (m4.height : ℤ))
    (hfg1 : m1.pix (ratTrunc p1.2).toNat (ratTrunc p1.1).toNat = 255)
    (hfg2 : m2.pix (ratTrunc p2.2).toNat (ratTrunc p2.1).toNat = 255)
    (hfg3 : m3.pix (ratTrunc p3.2).toNat (ratTrunc p3.1).toNat = 255)
    (hfg4 : m4.pix (ratTrunc p4.2).toNat (ratTrunc p4.1).toNat = 255)
    (hb1 : (ratTrunc p1.2).toNat < im1.height ∧
      (ratTrunc p1.1).toNat < im1.width)
    (hb2 : (ratTrunc p2.2).toNat < im2.height ∧
      (ratTrunc p2.1).toNat < im2.width)
    (hb3 : (ratTrunc p3.2).toNat < im3.height ∧
      (ratTrunc p3.1).toNat < im3.width)
    (hb4 : (ratTrunc p4.2).toNat < im4.height ∧
      (ratTrunc p4.1).toNat < im4.width) :
    check_voxel_visibility i [(1, l1), (2, l2), (3, l3), (4, l4)]
      [m1, m2, m3, m4] [im1, im2, im3, im4] =
    .ok (some
      (((im1.pix (ratTrunc p1.2).toNat (ratTrunc p1.1).toNat).1 +
        (im2.pix (ratTrunc p2.2).toNat (ratTrunc p2.1).toNat).1 +
        (im3.pix (ratTrunc p3.2).toNat (ratTrunc p3.1).toNat).1 +
        (im4.pix (ratTrunc p4.2).toNat (ratTrunc p4.1).toNat).1) / 4,
       ((im1.pix (ratTrunc p1.2).toNat (ratTrunc p1.1).toNat).2.1 +
        (im2.pix (ratTrunc p2.2).toNat (ratTrunc p2.1).toNat).2.1 +
        (im3.pix (ratTrunc p3.2).toNat (ratTrunc p3.1).toNat).2.1 +
        (im4.pix (ratTrunc p4.2).toNat (ratTrunc p4.1).toNat).2.1) / 4,
       ((im1.pix (ratTrunc p1.2).toNat (ratTrunc p1.1).toNat).2.2 +
        (im2.pix (ratTrunc p2.2).toNat (ratTrunc p2.1).toNat).2.2 +
        (im3.pix (ratTrunc p3.2).toNat (ratTrunc p3.1).toNat).2.2 +
        (im4.pix (ratTrunc p4.2).toNat (ratTrunc p4.1).toNat).2.2) / 4)) := by
  have g1 : pyGet [m1, m2, m3, m4] (((1 : ℕ) : ℤ) - 1) = some m1 := rfl
  have g2 : pyGet [m1, m2, m3, m4] (((2 : ℕ) : ℤ) - 1) = some m2 := rfl
  have g3 : pyGet [m1, m2, m3, m4] (((3 : ℕ) : ℤ) - 1) = some m3 := rfl
  have g4 : pyGet [m1, m2, m3, m4] (((4 : ℕ) : ℤ) - 1) = some m4 := rfl
  have gi1 : pyGet [im1, im2, im3, im4] (((1 : ℕ) : ℤ) - 1) = some im1 := rfl
  have gi2 : pyGet [im1, im2, im3, im4] (((2 : ℕ) : ℤ) - 1) = some im2 := rfl
  have gi3 : pyGet [im1, im2, im3, im4] (((3 : ℕ) : ℤ) - 1) = some im3 := rfl
  have gi4 : pyGet [im1, im2, im3, im4] (((4 : ℕ) : ℤ) - 1) = some im4 := rfl
  have r1 : im1.read? (ratTrunc p1.2).toNat (ratTrunc p1.1).toNat =
      some (im1.pix (ratTrunc p1.2).toNat (ratTrunc p1.1).toNat) := by
    simp [Img.read?, hb1.1, hb1.2]
  have r2 : im2.read? (ratTrunc p2.2).toNat (ratTrunc p2.1).toNat =
      some (im2.pix (ratTrunc p2.2).toNat (ratTrunc p2.1).toNat) := by
    simp [Img.read?, hb2.1, hb2.2]
  have r3 : im3.read? (ratTrunc p3.2).toNat (ratTrunc p3.1).toNat =
      some (im3.pix (ratTrunc p3.2).toNat (ratTrunc p3.1).toNat) := by
    simp [Img.read?, hb3.1, hb3.2]
  have r4 : im4.read? (ratTrunc p4.2).toNat (ratTrunc p4.1).toNat =
      some (im4.pix (ratTrunc p4.2).toNat (ratTrunc p4.1).toNat) := by
    simp [Img.read?, hb4.1, hb4.2]
  simp only [check_voxel_visibility, checkAux, hp1, hp2, hp3, hp4,
    g1, g2, g3, g4, gi1, gi2, gi3, gi4, r1, r2, r3, r4,
    hin1.1, hin1.2.1, hin1.2.2, hin2.1, hin2.2.1, hin2.2.2,
    hin3.1, hin3.2.1, hin3.2.2, hin4.1, hin4.2.1, hin4.2.2,
    hfg1, hfg2, hfg3, hfg4, and_self, if_true, ite_true]
  simp [meanColor, Prod.ext_iff]
  refine ⟨by ring_nf, by ring_nf, by ring_nf⟩

/-- Witness for C2: per-camera colors (10,0,0), (20,0,0), (30,0,0),
(40,0,0) on a visible voxel give exactly (25,0,0). -/
theorem c2_color_mean_witness :
    check_voxel_visibility 0 [(1, [((0 : ℚ), 0)]), (2, [(0, 0)]),
      (3, [(0, 0)]), (4, [(0, 0)])] [mFg, mFg, mFg, mFg]
      [img10, img20, img30, img40] = .ok (some (25, 0, 0)) := by
  have h := c2_color_mean 0 [((0 : ℚ), 0)] [(0, 0)] [(0, 0)] [(0, 0)]
    mFg mFg mFg mFg img10 img20 img30 img40
    ((0 : ℚ), 0) ((0 : ℚ), 0) ((0 : ℚ), 0) ((0 : ℚ), 0)
    rfl rfl rfl rfl
    (by decide) (by decide) (by decide) (by decide)
    (by decide) (by decide) (by decide) (by decide)
    (by decide) (by decide) (by decide) (by decide)
  exact h.trans (by decide)

/-- C3: the conversion of a projected LUT point to integer pixel
coordinates is truncation toward zero (floor for nonnegative values,
ceiling for nonpositive ones), not rounding to nearest (they disagree
at 3/2), and the checker depends on the stored points only through this
truncation, which it applies before the bounds check and the mask
lookup. -/
theorem c3_truncation :
    (∀ q : ℚ, 0 ≤ q → ratTrunc q = ⌊q⌋) ∧
    (∀ q : ℚ, q ≤ 0 → ratTrunc q = ⌈q⌉) ∧
    (∃ q : ℚ, ratTrunc q ≠ round q) ∧
    (∀ (i : ℕ) (lut : List (ℕ × List Pt2)) (masks : List (Img ℕ))
      (imgs : List (Img RGB)),
      check_voxel_visibility i (truncLut lut) masks imgs =
        check_voxel_visibility i lut masks imgs) := by
  refine ⟨fun q hq => ratTrunc_of_nonneg hq,
    fun q hq => ratTrunc_of_nonpos hq, ?_,
    fun i lut masks imgs => check_truncLut i lut masks imgs⟩
  refine ⟨(3 : ℚ) / 2, ?_⟩
  have h1 : ratTrunc ((3 : ℚ) / 2) = 1 := by
    rw [ratTrunc_of_nonneg (by norm_num), Int.floor_eq_iff]
    norm_num
  have h2 : round ((3 : ℚ) / 2) = 2 := by
    rw [round_eq, show (3 : ℚ) / 2 + 1 / 2 = 2 by norm_num, Int.floor_eq_iff]
    norm_num
  rw [h1, h2]
  decide

/-- Witness for C3: the floor and ceiling characterizations applied at
3/2 and -3/2, and truncation invariance of the checker at a concrete
input. -/
theorem c3_truncation_witness :
    ratTrunc ((3 : ℚ) / 2) = ⌊((3 : ℚ) / 2)⌋ ∧
    ratTrunc (-((3 : ℚ) / 2)) = ⌈-((3 : ℚ) / 2)⌉ ∧
    check_voxel_visibility 0 (truncLut lutOOB) masksOOB imgsOOB =
      check_voxel_visibility 0 lutOOB masksOOB imgsOOB := by
  obtain ⟨h1, h2, -, h4⟩ := c3_truncation
  exact ⟨h1 _ (by norm_num), h2 _ (by norm_num), h4 0 lutOOB masksOOB imgsOOB⟩

/-- C4: whenever the per-voxel loop completes without an index error,
its output is exactly the in-order list of records of visible voxels,
each record being the voxel's coordinates divided by 16 and truncated
toward zero together with its color, with no deduplication (one record
per visible index, duplicates of the same output triple allowed); and
the scaling maps the continuous coordinate (32, -16, 48) to the output
indices (2, -1, 3). -/
theorem c4_index_scaling :
    (∀ (vs : List Pt3) (lut : List (ℕ × List Pt2)) (masks : List (Img ℕ))
      (imgs : List (Img RGB)) (idxs : List ℕ),
      (∀ i ∈ idxs, (vs[i]?).isSome ∧
        check_voxel_visibility i lut masks imgs ≠ .error ()) →
      reconstructLoop vs lut masks imgs idxs = .ok (idxs.filterMap (fun i =>
        match vs[i]?, check_voxel_visibility i lut masks imgs with
        | some pt, .ok (some col) =>
          some (ratTrunc (pt.1 / 16), ratTrunc (pt.2.1 / 16),
            ratTrunc (pt.2.2 / 16), col)
        | _, _ => none))) ∧
    ratTrunc ((32 : ℚ) / 16) = 2 ∧
    ratTrunc ((-16 : ℚ) / 16) = -1 ∧
    ratTrunc ((48 : ℚ) / 16) = 3 := by
  refine ⟨fun vs lut masks imgs idxs h =>
    reconstructLoop_char vs lut masks imgs idxs h, ?_, ?_, ?_⟩
  · rw [show (32 : ℚ) / 16 = ((2 : ℤ) : ℚ) by norm_num, ratTrunc_intCast]
  · rw [show (-16 : ℚ) / 16 = ((-1 : ℤ) : ℚ) by norm_num, ratTrunc_intCast]
  · rw [show (48 : ℚ) / 16 = ((3 : ℤ) : ℚ) by norm_num, ratTrunc_intCast]

/-- Witness for C4: one voxel at (32, -16, 48), visible in all four
cameras with mean color (25, 0, 0), produces the single record
(2, -1, 3, 25, 0, 0). -/
theorem c4_index_scaling_witness :
    reconstructLoop [((32 : ℚ), -16, 48)] lutZero masksFg imgsFour [0] =
      .ok [(2, -1, 3, (25, 0, 0))] := by
  have hcheck : check_voxel_visibility 0 lutZero masksFg imgsFour =
      .ok (some (25, 0, 0)) := by decide
  have h := c4_index_scaling.1 [((32 : ℚ), -16, 48)] lutZero masksFg imgsFour
    [0] (by
      intro i hi
      simp only [List.mem_singleton] at hi
      subst hi
      refine ⟨by rfl, ?_⟩
      rw [hcheck]
      exact fun hcon => Except.noConfusion hcon)
  rw [h]
  have e1 : ([((32 : ℚ), -16, 48)] : List Pt3)[(0 : ℕ)]? =
      some (((32 : ℚ), (-16 : ℚ), (48 : ℚ)) : Pt3) := rfl
  simp only [List.filterMap_cons, List.filterMap_nil, e1, hcheck]
  rw [show (32 : ℚ) / 16 = ((2 : ℤ) : ℚ) by norm_num,
    show (-16 : ℚ) / 16 = ((-1 : ℤ) : ℚ) by norm_num,
    show (48 : ℚ) / 16 = ((3 : ℤ) : ℚ) by norm_num,
    ratTrunc_intCast, ratTrunc_intCast, ratTrunc_intCast]

/-- C6: for any projection function and voxel list, the LUT built by
create_lut_parallel has exactly the camera ids 1, 2, 3, 4 as its keys
in order, and each camera's row has one entry per voxel, entry i being
the projection of voxel i. -/
theorem c6_lut_invariant (proj : ℕ → Pt3 → Pt2) (vs : List Pt3) :
    (create_lut_parallel proj vs).map Prod.fst = camIds ∧
    ∀ e ∈ create_lut_parallel proj vs,
      e.2.length = vs.length ∧
      ∀ i : ℕ, e.2[i]? = (vs[i]?).map (proj e.1) := by
  constructor
  · rw [create_lut_parallel, lutWithOrder, List.map_map]
    rfl
  · intro e he
    rw [create_lut_parallel, lutWithOrder] at he
    obtain ⟨c, hc, rfl⟩ := List.mem_map.mp he
    refine ⟨?_, ?_⟩
    · unfold project_to_2d
      rw [List.length_map]
    · intro i
      unfold project_to_2d
      rw [List.getElem?_map]

/-- Witness for C6 at a concrete projection and one-voxel grid: the key
list is 1, 2, 3, 4 and camera 1's row has the projection of voxel 0 at
position 0. -/
theorem c6_lut_invariant_witness :
    (create_lut_parallel projZero [((0 : ℚ), 0, 0)]).map Prod.fst = camIds ∧
    ((1 : ℕ), [((0 : ℚ), (0 : ℚ))]).2.length =
      ([((0 : ℚ), 0, 0)] : List Pt3).length ∧
    ((1 : ℕ), [((0 : ℚ), (0 : ℚ))]).2[(0 : ℕ)]? =
      (([((0 : ℚ), 0, 0)] : List Pt3)[(0 : ℕ)]?).map (projZero 1) := by
  obtain ⟨h1, h2⟩ := c6_lut_invariant projZero [((0 : ℚ), 0, 0)]
  have hmem : ((1 : ℕ), [((0 : ℚ), (0 : ℚ))]) ∈
      create_lut_parallel projZero [((0 : ℚ), 0, 0)] := by decide
  obtain ⟨hl, hg⟩ := h2 _ hmem
  exact ⟨h1, hl, hg 0⟩

/-- C8: when every silhouette mask is entirely background and the four
masks are present, the reconstruction completes normally and returns an
empty list of visible-voxel records, whatever the color images and the
projection are. -/
theorem c8_empty_masks (masks : List (Img ℕ)) (imgs : List (Img RGB))
    (proj : ℕ → Pt3 → Pt2) (hm4 : masks.length = 4)
    (hbg : allBackground masks) :
    check_visibility_and_reconstruct masks imgs proj = .ok [] :=
  reconstruct_allBackground hm4 hbg

/-- Witness for C8 with four concrete all-background masks. -/
theorem c8_empty_masks_witness :
    check_visibility_and_reconstruct masksBg imgsFour projZero = .ok [] :=
  c8_empty_masks masksBg imgsFour projZero rfl
    (by unfold allBackground; decide)

/-- C7 (counterexample): the first mask is 1 by 1 while the first color
image is 2 by 2 (a dimension mismatch), yet the reconstruction pass
completes normally with an empty output instead of failing with an
eagerly detected fatal error. -/
theorem c7_counterexample :
    (∃ j : ℕ, ∃ m im, masksBg[j]? = some m ∧ imgsMismatch[j]? = some im ∧
      m.height ≠ im.height) ∧
    check_visibility_and_reconstruct masksBg imgsMismatch projZero = .ok [] :=
  ⟨⟨0, mBg, imgBig, rfl, rfl, by decide⟩,
   reconstruct_allBackground rfl (by unfold allBackground; decide)⟩

/-- C7 (amended): the driver performs no eager validation.  A
mask/color dimension mismatch is not detected up front: whenever no
foreground pixel is consulted the pass completes normally despite the
mismatch.  A LUT row shorter than the voxel list fails only lazily,
when per-voxel resolution first reads a missing entry, and the failing
pass carries no partial output. -/
theorem c7_amended_lazy_failure :
    (∀ (masks : List (Img ℕ)) (imgs : List (Img RGB)) (proj : ℕ → Pt3 → Pt2),
      masks.length = 4 → allBackground masks →
      (∃ j : ℕ, ∃ m im, masks[j]? = some m ∧ imgs[j]? = some im ∧
        (m.height ≠ im.height ∨ m.width ≠ im.width)) →
      check_visibility_and_reconstruct masks imgs proj = .ok []) ∧
    (∀ (vs : List Pt3) (masks : List (Img ℕ)) (imgs : List (Img RGB))
      (c i : ℕ) (rest : List ℕ), i < vs.length →
      reconstructLoop vs [(c, [])] masks imgs (i :: rest) = .error ()) := by
  constructor
  · intro masks imgs proj hm4 hbg _
    exact reconstruct_allBackground hm4 hbg
  · intro vs masks imgs c i rest hi
    obtain ⟨pt, hpt⟩ := Option.isSome_iff_exists.mp (getElem?_isSome_iff.mpr hi)
    have hcheck : check_voxel_visibility i [(c, [])] masks imgs = .error () := by
      rfl
    simp [reconstructLoop, hpt, hcheck]

/-- Witness for the amended C7: the mismatched-dimension pass completes
with empty output, and a LUT with an empty row for camera 1 makes the
loop fail at its first voxel. -/
theorem c7_amended_lazy_failure_witness :
    check_visibility_and_reconstruct masksBg imgsMismatch projZero = .ok [] ∧
    reconstructLoop [((0 : ℚ), 0, 0)] [(1, [])] masksBg imgsFour [0] =
      .error () := by
  obtain ⟨h1, h2⟩ := c7_amended_lazy_failure
  exact ⟨h1 masksBg imgsMismatch projZero rfl (by unfold allBackground; decide)
      ⟨0, mBg, imgBig, rfl, rfl, Or.inl (by decide)⟩,
    h2 [((0 : ℚ), 0, 0)] masksBg imgsFour 1 0 [] (by decide)⟩

/-- C9: the reconstruction is deterministic and independent of thread
scheduling.  The source collects the four LUT futures in submission
order, so the LUT insertion order is always 1, 2, 3, 4; moreover, even
if the results were collected in any other completion order (any
permutation of the camera ids), the per-voxel loop over the fixed grid
would produce the identical output list on identical mask and image
inputs. -/
theorem c9_determinism (masks : List (Img ℕ)) (imgs : List (Img RGB))
    (proj : ℕ → Pt3 → Pt2) (order : List ℕ) (horder : order.Perm camIds)
    (hdims : ∀ j < 4, ∃ m im, masks[j]? = some m ∧ imgs[j]? = some im ∧
      m.height ≤ im.height ∧ m.width ≤ im.width) :
    reconstructLoop voxels (lutWithOrder proj voxels order) masks imgs
      (List.range voxels.length) =
    check_visibility_and_reconstruct masks imgs proj := by
  unfold check_visibility_and_reconstruct create_lut_parallel
  apply reconstructLoop_congr
  intro i hi
  rw [List.mem_range] at hi
  have hperm : (lutWithOrder proj voxels order).Perm
      (lutWithOrder proj voxels camIds) := horder.map _
  have hok : LutOK i (lutWithOrder proj voxels order) masks imgs := by
    intro e he
    rw [lutWithOrder] at he
    obtain ⟨c, hc, rfl⟩ := List.mem_map.mp he
    have hc4 : c ∈ camIds := horder.mem_iff.mp hc
    constructor
    · unfold project_to_2d
      refine getElem?_isSome_iff.mpr ?_
      rw [List.length_map]
      exact hi
    · fin_cases hc4
      · obtain ⟨m, im, hm, him, hh, hw⟩ := hdims 0 (by norm_num)
        refine ⟨m, im, ?_, ?_, hh, hw⟩
        · rw [show ((1 : ℕ) : ℤ) - 1 = ((0 : ℕ) : ℤ) from rfl, pyGet_natCast]
          exact hm
        · rw [show ((1 : ℕ) : ℤ) - 1 = ((0 : ℕ) : ℤ) from rfl, pyGet_natCast]
          exact him
      · obtain ⟨m, im, hm, him, hh, hw⟩ := hdims 1 (by norm_num)
        refine ⟨m, im, ?_, ?_, hh, hw⟩
        · rw [show ((2 : ℕ) : ℤ) - 1 = ((1 : ℕ) : ℤ) from rfl, pyGet_natCast]
          exact hm
        · rw [show ((2 : ℕ) : ℤ) - 1 = ((1 : ℕ) : ℤ) from rfl, pyGet_natCast]
          exact him
      · obtain ⟨m, im, hm, him, hh, hw⟩ := hdims 2 (by norm_num)
        refine ⟨m, im, ?_, ?_, hh, hw⟩
        · rw [show ((3 : ℕ) : ℤ) - 1 = ((2 : ℕ) : ℤ) from rfl, pyGet_natCast]
          exact hm
        · rw [show ((3 : ℕ) : ℤ) - 1 = ((2 : ℕ) : ℤ) from rfl, pyGet_natCast]
          exact him
      · obtain ⟨m, im, hm, him, hh, hw⟩ := hdims 3 (by norm_num)
        refine ⟨m, im, ?_, ?_, hh, hw⟩
        · rw [show ((4 : ℕ) : ℤ) - 1 = ((3 : ℕ) : ℤ) from rfl, pyGet_natCast]
          exact hm
        · rw [show ((4 : ℕ) : ℤ) - 1 = ((3 : ℕ) : ℤ) from rfl, pyGet_natCast]
          exact him
  exact check_perm hperm hok

/-- Witness for C9: with a permuted collection order 2, 1, 3, 4 and
concrete masks and images the pass output coincides with the canonical
run. -/
theorem c9_determinism_witness :
    reconstructLoop voxels (lutWithOrder projZero voxels [2, 1, 3, 4])
      masksBg imgsFour (List.range voxels.length) =
    check_visibility_and_reconstruct masksBg imgsFour projZero := by
  apply c9_determinism
  · decide
  · intro j hj
    interval_cases j
    · exact ⟨mBg, img10, rfl, rfl, by decide, by decide⟩
    · exact ⟨mBg, img20, rfl, rfl, by decide, by decide⟩
    · exact ⟨mBg, img30, rfl, rfl, by decide, by decide⟩
    · exact ⟨mBg, img40, rfl, rfl, by decide, by decide⟩
